import Mathlib

/-!
Verification of the kite helper library (airdrop / keypair / env-file
helpers) against its natural-language specification.

The embedding models the TypeScript sources shallowly:
  * `Keypair` is its 64-byte secret key (a `List Nat` of bytes); the public
    key is its last 32 bytes, as in the ed25519 secret-key layout used by
    the SDK.  The ed25519 validation performed by `Keypair.fromSecretKey`
    is abstracted to the length check (the cryptographic pairing of the
    two halves is out of scope).
  * `process.env` is an association list `Env`; files are association
    lists from file name to a list of text lines (the write path appends
    whole lines; the leading newline of the appended chunk is modelled as
    a line boundary).
  * JavaScript promise-based code is straight-line state passing; network
    effects are recorded in an explicit event trace.
  * `JSON.stringify` of a byte array and the `JSON.parse` +
    `Uint8Array.from` composition used by the loader are modelled by a
    decimal array printer and parser (canonical, whitespace-free form).
All machine integers involved are unbounded non-negative counters
(lamport amounts), so `Nat` is used throughout.
-/

namespace Kite

/-! ## Decimal digits (model of JSON number rendering and parsing) -/

/-- Render a decimal digit (0..9) as a character. -/
def digitChar (d : Nat) : Char :=
  match d with
  | 0 => '0' | 1 => '1' | 2 => '2' | 3 => '3' | 4 => '4'
  | 5 => '5' | 6 => '6' | 7 => '7' | 8 => '8' | _ => '9'

/-- Numeric value of a decimal digit character. -/
def digitVal (c : Char) : Nat := c.toNat - 48

/-- Big-endian decimal digits of `n`, with explicit fuel (the fuel `n + 1`
used by `natDecDigits` always suffices because `n / 10 < n` for `n ≥ 10`). -/
def natDecDigitsAux : Nat → Nat → List Char
  | 0, _ => []
  | fuel + 1, n =>
    if n < 10 then [digitChar n]
    else natDecDigitsAux fuel (n / 10) ++ [digitChar (n % 10)]

/-- Big-endian decimal digits of `n` (model of JavaScript number printing). -/
def natDecDigits (n : Nat) : List Char := natDecDigitsAux (n + 1) n

/-! ## Base58 (model of the bs58 dependency) -/

/-- The Bitcoin base58 alphabet used by bs58. -/
def base58Alphabet : List Char :=
  "123456789ABCDEFGHJKLMNPQRSTUVWXYZabcdefghijkmnopqrstuvwxyz".data

/-- Index of a character in the base58 alphabet; `none` is bs58's
"Non-base58 character" error. -/
def base58CharValue (c : Char) : Option Nat :=
  base58Alphabet.findIdx? (fun a => a = c)

/-- Big-endian base-256 digits of `n`, with explicit fuel. -/
def natToBytesAux : Nat → Nat → List Nat
  | 0, _ => []
  | fuel + 1, n =>
    if n = 0 then []
    else natToBytesAux fuel (n / 256) ++ [n % 256]

/-- Big-endian base-256 digits of `n` (empty for zero). -/
def natToBytes (n : Nat) : List Nat := natToBytesAux n n

/-- Decode a base58 string to bytes, as bs58 does: leading `1` characters
become zero bytes, the remainder is read as a base-58 big integer.
Returns `none` exactly when some character is outside the alphabet. -/
def base58Decode (s : String) : Option (List Nat) :=
  let cs := s.data
  let zeros := (cs.takeWhile (fun c => c = '1')).length
  let rest := cs.dropWhile (fun c => c = '1')
  (rest.foldlM (fun acc c => (base58CharValue c).map (fun v => acc * 58 + v)) 0).map
    (fun n => List.replicate zeros 0 ++ natToBytes n)

/-- Big-endian base-58 digits of `n`, with explicit fuel. -/
def natToB58Aux : Nat → Nat → List Char
  | 0, _ => []
  | fuel + 1, n =>
    if n < 58 then [base58Alphabet.getD n '1']
    else natToB58Aux fuel (n / 58) ++ [base58Alphabet.getD (n % 58) '1']

/-- Value of a byte list read as a base-256 big-endian integer. -/
def natOfBytes (bs : List Nat) : Nat := bs.foldl (fun acc b => acc * 256 + b) 0

/-- Encode bytes in base58, as bs58 does: each leading zero byte becomes a
`1` character, the remainder is written as a base-58 big integer. -/
def base58Encode (bs : List Nat) : String :=
  let zeros := (bs.takeWhile (fun b => b = 0)).length
  let n := natOfBytes bs
  let body := if n = 0 then [] else natToB58Aux (n + 1) n
  String.mk (List.replicate zeros '1' ++ body)

/-! ## Keypairs -/

/-- A keypair, identified with its 64-byte secret key: 32 seed bytes
followed by the 32 public-key bytes (the ed25519 secret-key layout). -/
structure Keypair where
  secretKey : List Nat
deriving Repr, DecidableEq

/-- Public-key bytes of a keypair: the last 32 bytes of the secret key. -/
def Keypair.publicKey (kp : Keypair) : List Nat := kp.secretKey.drop 32

/-- Model of `Keypair.fromSecretKey`: succeeds exactly on 64-byte inputs
(the SDK's ed25519 consistency check between the two halves is abstracted
away; see the module comment). -/
def Keypair.fromSecretKey (bs : List Nat) : Option Keypair :=
  if bs.length = 64 then some ⟨bs⟩ else none

/-- Textual address of a keypair: base58 encoding of its public key,
as `publicKey.toBase58()` in the source. -/
def addressOf (kp : Keypair) : String := base58Encode kp.publicKey

/-! ## JSON byte arrays (model of JSON.stringify / JSON.parse on arrays) -/

/-- Characters of the comma-separated decimal body of a JSON byte array. -/
def jsonBytesBody : List Nat → List Char
  | [] => []
  | [b] => natDecDigits b
  | b :: rest => natDecDigits b ++ ',' :: jsonBytesBody rest

/-- Characters of `JSON.stringify(Array.from(bytes))`. -/
def jsonBytesChars (bs : List Nat) : List Char :=
  '[' :: jsonBytesBody bs ++ [']']

/-- Model of `keypairToSecretKeyJSON` from transaction.ts:
`JSON.stringify(Array.from(keypair.secretKey))`. -/
def keypairToSecretKeyJSON (kp : Keypair) : String :=
  String.mk (jsonBytesChars kp.secretKey)

/-- Consume a maximal run of decimal digits from the front of `cs`,
returning its value and the remaining characters. -/
def parseDigits (cs : List Char) : Option (Nat × List Char) :=
  let ds := cs.takeWhile (fun c => c.isDigit)
  if ds = [] then none
  else some (ds.foldl (fun a c => a * 10 + digitVal c) 0, cs.drop ds.length)

/-- Parse the comma-separated items of a JSON byte array up to and
including the closing bracket, with explicit fuel. -/
def parseItems : Nat → List Char → Option (List Nat)
  | 0, _ => none
  | fuel + 1, cs =>
    match parseDigits cs with
    | none => none
    | some (n, rest) =>
      match rest with
      | ']' :: tail => if tail = [] then some [n] else none
      | ',' :: tail => (parseItems fuel tail).map (fun ns => n :: ns)
      | _ => none

/-- Model of `Uint8Array.from(JSON.parse(s))` as used by the loader:
accepts exactly a canonical JSON array of decimal integers. -/
def jsonParseBytes (cs : List Char) : Option (List Nat) :=
  match cs with
  | '[' :: rest => if rest = [']'] then some [] else parseItems rest.length rest
  | _ => none

/-! ## Environment and errors -/

/-- The process environment: an association list, first binding wins. -/
abbrev Env := List (String × String)

/-- Look a variable up in the environment. -/
def lookupEnv (env : Env) (k : String) : Option String :=
  (env.find? (fun p => p.1 = k)).map (fun p => p.2)

/-- JavaScript truthiness of an optional environment value: `undefined`
and the empty string are falsy. -/
def envValueTruthy (v : Option String) : Bool :=
  match v with
  | none => false
  | some s => s != ""

/-- Errors raised by the keypair helpers in transaction.ts (each
constructor stands for the `Error` thrown at the corresponding site;
messages carry the variable name). -/
inductive KeyError where
  /-- thrown as: Please set variableName in environment. -/
  | missingVariable (variableName : String)
  /-- thrown as: Invalid secret key in environment variable variableName! -/
  | invalidSecretKey (variableName : String)
  /-- the SDK error escaping `Keypair.fromSecretKey` outside the JSON
  branch's try block (a bad-size secret key). -/
  | badSecretKeySize (variableName : String)
  /-- thrown as: variableName already exists in env file. -/
  | alreadyExistsInEnvFile (variableName : String)
deriving Repr, DecidableEq

/-- Classification used by the spec's error taxonomy: every error other
than a missing variable reports malformed secret material or a conflict. -/
def KeyError.isMalformedSecret : KeyError → Bool
  | .missingVariable _ => false
  | .invalidSecretKey _ => true
  | .badSecretKeySize _ => true
  | .alreadyExistsInEnvFile _ => false

/-- Model of `getKeypairFromEnvironment` from transaction.ts: read the
variable, fail if absent or empty; try base58 first, falling through to
the JSON branch exactly when a non-base58 character is found; in the
base58 branch a failing `fromSecretKey` is wrapped as an invalid-secret
error, in the JSON branch it escapes as the SDK's own error. -/
def getKeypairFromEnvironment (env : Env) (variableName : String) :
    Except KeyError Keypair :=
  match lookupEnv env variableName with
  | none => .error (.missingVariable variableName)
  | some s =>
    if s = "" then .error (.missingVariable variableName)
    else
      match base58Decode s with
      | some bs =>
        match Keypair.fromSecretKey bs with
        | some kp => .ok kp
        | none => .error (.invalidSecretKey variableName)
      | none =>
        match jsonParseBytes s.data with
        | none => .error (.invalidSecretKey variableName)
        | some bs =>
          match Keypair.fromSecretKey bs with
          | some kp => .ok kp
          | none => .error (.badSecretKeySize variableName)

/-! ## System state: environment, files, ledger -/

/-- An address in textual form. -/
abbrev Addr := String

/-- A ledger mapping addresses to lamport balances (absent means zero). -/
abbrev Ledger := List (Addr × Nat)

/-- Balance of an address (zero when the address has never been funded). -/
def getBalance (led : Ledger) (a : Addr) : Nat :=
  ((led.find? (fun p => p.1 = a)).map (fun p => p.2)).getD 0

/-- Credit an address with `x` lamports. -/
def credit (led : Ledger) (a : Addr) (x : Nat) : Ledger :=
  (a, getBalance led a + x) :: led

/-- State visible to the helpers: the process environment, the text files
(file name to list of lines), and the test-network ledger. -/
structure SysState where
  env : Env
  files : List (String × List String)
  ledger : Ledger
deriving Repr, DecidableEq

/-- Lines of a file (empty when the file does not exist yet). -/
def getFile (st : SysState) (fname : String) : List String :=
  ((st.files.find? (fun p => p.1 = fname)).map (fun p => p.2)).getD []

/-- Append lines to a file, creating it when absent. -/
def appendFileLines (st : SysState) (fname : String) (newLines : List String) :
    SysState :=
  { st with files := (fname, getFile st fname ++ newLines) :: st.files }

/-- Network events recorded by the trace. -/
inductive NetEvent where
  /-- an airdrop request of `amount` lamports for `addr` was issued -/
  | airdropRequest (addr : Addr) (amount : Nat)
deriving Repr, DecidableEq

/-! ## Env-file persistence (addKeypairToEnvFile, transaction.ts) -/

/-- The comment line the write path puts before the KEY=VALUE line. -/
def solanaAddressMarker : List Char := "# Solana Address: ".data

/-- Model of `addKeypairToEnvFile` from transaction.ts: default the file
name to `.env`, fail when `process.env[variableName]` is truthy (note:
the check is on the process environment, not on the destination file),
otherwise append a comment line carrying the derived address followed by
the `KEY=VALUE` line.  The leading newline of the appended chunk is the
empty line of the appended triple. -/
def addKeypairToEnvFile (st : SysState) (kp : Keypair) (variableName : String)
    (envFileName : Option String) : Except KeyError Unit × SysState :=
  let fname := envFileName.getD ".env"
  if envValueTruthy (lookupEnv st.env variableName) then
    (.error (.alreadyExistsInEnvFile variableName), st)
  else
    let commentLine := String.mk (solanaAddressMarker ++ (addressOf kp).data)
    let keyLine := String.mk (variableName.data ++ '=' :: (keypairToSecretKeyJSON kp).data)
    (.ok (), appendFileLines st fname ["", commentLine, keyLine])

/-! ## dotenv (model of the dotenv dependency) -/

/-- Split a list of characters at the first `=`, returning the parts
before and after it. -/
def splitFirstEq : List Char → Option (List Char × List Char)
  | [] => none
  | c :: cs =>
    if c = '=' then some ([], cs)
    else (splitFirstEq cs).map (fun p => (c :: p.1, p.2))

/-- Parse one line of an env file: comment lines (leading `#`), empty
lines and lines without `=` yield nothing; otherwise split at the first
`=` into name and value. -/
def parseEnvLine (line : String) : Option (String × String) :=
  match line.data with
  | [] => none
  | c :: _ =>
    if c = '#' then none
    else (splitFirstEq line.data).map (fun p => (String.mk p.1, String.mk p.2))

/-- Pairs defined by an env file's lines. -/
def dotenvParse (lines : List String) : Env := lines.filterMap parseEnvLine

/-- Model of `dotenv.config`: add the file's pairs to the environment,
never overriding variables that are already set. -/
def dotenvConfig (st : SysState) (path : String) : SysState :=
  { st with
    env := st.env ++ (dotenvParse (getFile st path)).filter
      (fun p => (lookupEnv st.env p.1).isNone) }

/-- Round-trip scenario of the spec: persist a keypair to an env file,
load the file with dotenv, then read the keypair back through
`getKeypairFromEnvironment` under the same variable name (mirroring what
`createWallet` and the tests do). -/
def persistAndReload (st : SysState) (kp : Keypair) (name fname : String) :
    Except KeyError Keypair × SysState :=
  match addKeypairToEnvFile st kp name (some fname) with
  | (.error e, st') => (.error e, st')
  | (.ok (), st') =>
    let st'' := dotenvConfig st' fname
    (getKeypairFromEnvironment st''.env name, st'')

/-- Address recorded by the last persisted comment line of an env file. -/
def recordedSolanaAddress (lines : List String) : Option String :=
  (lines.reverse.find? (fun l => solanaAddressMarker.isPrefixOf l.data)).map
    (fun l => String.mk (l.data.drop solanaAddressMarker.length))

/-! ## Airdrop (modelled from the spec) -/

/-- Modelled from the spec: section 4.1's `airdropIfRequired` is not under
src/ (only its tests and callers are).  Fetch the current balance; when it
is at least `minimumBalance` return it unchanged with no network write;
otherwise issue one funding request for `airdropAmount`, wait for
confirmation, and return the resulting balance.  The returned trace
records the funding requests issued. -/
def airdropIfRequired (st : SysState) (addr : Addr)
    (airdropAmount minimumBalance : Nat) : SysState × Nat × List NetEvent :=
  let balance := getBalance st.ledger addr
  if balance ≥ minimumBalance then (st, balance, [])
  else
    let st' := { st with ledger := credit st.ledger addr airdropAmount }
    (st', getBalance st'.ledger addr, [.airdropRequest addr airdropAmount])

/-! ## Keypair grinder (modelled from the spec) -/

/-- Does a textual address start with the given optional pattern?
Absent patterns match everything (JS `startsWith` on char lists). -/
def matchesPfx (addr : String) (pfx : Option String) : Bool :=
  match pfx with
  | none => true
  | some p => p.data.isPrefixOf addr.data

/-- Does a textual address end with the given optional pattern? -/
def matchesSfx (addr : String) (sfx : Option String) : Bool :=
  match sfx with
  | none => true
  | some s => s.data.isSuffixOf addr.data

/-- Modelled from the spec: section 4.2's `grindKeyPair` is not under
src/.  Fresh random keypairs come from the stream `gen` (index = attempt
number); the loop accepts the first keypair whose address encoding starts
with `pfx` and ends with `sfx`.  The source loops without bound; the
model carries explicit fuel and reports the number of attempts used. -/
def grindFrom (gen : Nat → Keypair) (i : Nat) :
    Nat → Option String → Option String → Option (Keypair × Nat)
  | 0, _, _ => none
  | fuel + 1, pfx, sfx =>
    let kp := gen i
    if matchesPfx (addressOf kp) pfx && matchesSfx (addressOf kp) sfx
    then some (kp, i + 1)
    else grindFrom gen (i + 1) fuel pfx sfx

/-- Modelled from the spec: the grinder's entry point; returns the first
matching generated keypair together with the number of keypairs
generated, or `none` when the fuel runs out before a match. -/
def grindKeyPair (gen : Nat → Keypair) (fuel : Nat)
    (pfx sfx : Option String) : Option (Keypair × Nat) :=
  grindFrom gen 0 fuel pfx sfx

/-! ## Signers and wallet creation -/

/-- A signer wrapping a keypair; `extractable` tags whether the private
key material can be exported (the WebCrypto extractable flag). -/
structure KeyPairSigner where
  keyPair : Keypair
  extractable : Bool
deriving Repr, DecidableEq

/-- Textual address of a signer. -/
def KeyPairSigner.address (s : KeyPairSigner) : Addr := addressOf s.keyPair

/-- Modelled from the spec: section 4.4's loader (`loadWalletFromEnvironment`
in keypair.ts, not under src/) accepts the same two encodings as
`getKeypairFromEnvironment` and returns the keypair as a non-extractable
signer. -/
def loadWalletFromEnvironment (env : Env) (variableName : String) :
    Except KeyError KeyPairSigner :=
  (getKeypairFromEnvironment env variableName).map (fun kp => ⟨kp, false⟩)

/-- Modelled from the spec: `DEFAULT_AIRDROP_AMOUNT` lives in the
constants file, which is not under src/; one SOL in lamports. -/
def SOL : Nat := 1000000000

/-- Modelled from the spec: default airdrop amount used by `createWallet`
when the caller does not mention `airdropAmount` at all. -/
def DEFAULT_AIRDROP_AMOUNT : Nat := SOL

/-- Modelled from the spec: default env variable name used by
`createWallet` (constants file not under src/). -/
def DEFAULT_ENV_KEYPAIR_VARIABLE_NAME : String := "PRIVATE_KEY"

/-- The `airdropAmount` option of `createWallet`: the property may be
absent (`unset`, JS `undefined`, picks up the default), explicitly
`null`, or an explicit lamport amount. -/
inductive AirdropOpt where
  | unset
  | null
  | amount (l : Nat)
deriving Repr, DecidableEq

/-- Options of `createWallet` (source: the `createWalletFactory` options
object). -/
structure CreateWalletOptions where
  pfx : Option String := none
  sfx : Option String := none
  envFileName : Option String := none
  envVariableName : Option String := none
  airdropAmount : AirdropOpt := .unset
deriving Repr, DecidableEq

/-- Errors of `createWallet`: a persistence or load failure, or the
model's grinding fuel running out. -/
inductive WalletError where
  | keyError (e : KeyError)
  | grindExhausted
deriving Repr, DecidableEq

/-- The env file name `createWallet` actually uses: when an env variable
name is requested (truthy) and no file name is given (falsy), the file
defaults to `.env`. -/
def resolvedEnvFileName (options : CreateWalletOptions) : Option String :=
  if envValueTruthy options.envVariableName && !envValueTruthy options.envFileName
  then some ".env"
  else options.envFileName

/-- The airdrop amount after destructuring with its default: an absent
property picks up `DEFAULT_AIRDROP_AMOUNT`, an explicit `null` stays
null. -/
def resolvedAirdropAmount (options : CreateWalletOptions) : Option Nat :=
  match options.airdropAmount with
  | .unset => some DEFAULT_AIRDROP_AMOUNT
  | .null => none
  | .amount l => some l

/-- The funding step at the end of `createWallet`: `if (airdropAmount)`
guards the call (null and zero are falsy), and the call passes the
airdrop amount as the minimum balance too. -/
def fundIfRequested (st : SysState) (signer : KeyPairSigner)
    (airdropAmount : Option Nat) : SysState × List NetEvent :=
  match airdropAmount with
  | none => (st, [])
  | some l =>
    if l = 0 then (st, [])
    else
      let r := airdropIfRequired st signer.address l l
      (r.1, r.2.2)

/-- Model of `createWallet` (the `createWalletFactory` body): resolve the
env file name, grind a keypair; on the persistence path the ground
keypair is extractable, written to the file, the file is loaded with
dotenv and the signer returned is the one reloaded from the environment
as non-extractable; otherwise a non-extractable signer is made directly.
Finally the wallet is funded when the airdrop amount is truthy.  `gen`
and `fuel` model the grinder's randomness as in `grindKeyPair`. -/
def createWallet (gen : Nat → Keypair) (fuel : Nat) (st : SysState)
    (options : CreateWalletOptions) :
    Except WalletError (KeyPairSigner × SysState × List NetEvent) :=
  let envFileName := resolvedEnvFileName options
  let envVariableName := options.envVariableName.getD DEFAULT_ENV_KEYPAIR_VARIABLE_NAME
  let airdropAmount := resolvedAirdropAmount options
  match envValueTruthy envFileName, envFileName with
  | true, some fname =>
    match grindKeyPair gen fuel options.pfx options.sfx with
    | none => .error .grindExhausted
    | some (tempKp, _) =>
      match addKeypairToEnvFile st tempKp envVariableName (some fname) with
      | (.error e, _) => .error (.keyError e)
      | (.ok (), st1) =>
        let st2 := dotenvConfig st1 fname
        match loadWalletFromEnvironment st2.env envVariableName with
        | .error e => .error (.keyError e)
        | .ok signer =>
          let r := fundIfRequested st2 signer airdropAmount
          .ok (signer, r.1, r.2)
  | _, _ =>
    match grindKeyPair gen fuel options.pfx options.sfx with
    | none => .error .grindExhausted
    | some (kp, _) =>
      let signer : KeyPairSigner := ⟨kp, false⟩
      let r := fundIfRequested st signer airdropAmount
      .ok (signer, r.1, r.2)

/-! ## Transaction confirmation (confirmTransaction, transaction.ts) -/

/-- An RPC response carrying an optional error. -/
structure RPCResponse where
  err : Option String
deriving Repr, DecidableEq

/-- Model of `getErrorFromRPCResponse` (logs.ts, whose body is not under
src/; the spec says RPC failures propagate unmodified): re-throw the
response's error when there is one. -/
def getErrorFromRPCResponse (r : RPCResponse) : Except String Unit :=
  match r.err with
  | some e => .error e
  | none => .ok ()

/-- Events visible during `confirmTransaction`: the confirmation call
(recording whether the abort signal passed to it was already fired), and
a firing of the abort mechanism. -/
inductive ConfirmEvent where
  | confirmCall (signature : String) (abortSignalFired : Bool)
  | abortFired
deriving Repr, DecidableEq

/-- Model of `confirmTransaction` from transaction.ts: construct an abort
controller (never aborted), await the confirmation call with that
controller's signal, surface any RPC error, and return the signature.
The connection is the behaviour of `getRecentSignatureConfirmation`; the
trace records what happened. -/
def confirmTransaction
    (getRecentSignatureConfirmation : String → String → Bool → RPCResponse)
    (signature : String) (commitment : String := "finalized") :
    Except String String × List ConfirmEvent :=
  let controllerAborted := false
  let rpcResponse := getRecentSignatureConfirmation signature commitment controllerAborted
  let trace := [ConfirmEvent.confirmCall signature controllerAborted]
  match getErrorFromRPCResponse rpcResponse with
  | .error e => (.error e, trace)
  | .ok () => (.ok signature, trace)

/-! ## Helper lemmas -/

theorem getBalance_credit_self (led : Ledger) (a : Addr) (x : Nat) :
    getBalance (credit led a x) a = getBalance led a + x := by
  simp [getBalance, credit, List.find?_cons_of_pos]

theorem isPrefixOf_append_self (l r : List Char) : l.isPrefixOf (l ++ r) = true := by
  rw [List.isPrefixOf_iff_prefix]
  exact List.prefix_append l r

/-! ## Claims C1 and C2: airdropIfRequired -/

/-- C1: when the fetched balance of the address is strictly below the
requested minimum, `airdropIfRequired` issues exactly one funding request
for `airdropAmount` and returns the resulting balance, which is the
prior balance plus `airdropAmount`. -/
theorem airdropIfRequired_funds_when_below (st : SysState) (addr : Addr)
    (airdropAmount minimumBalance : Nat)
    (h : getBalance st.ledger addr < minimumBalance) :
    airdropIfRequired st addr airdropAmount minimumBalance =
      ({ st with ledger := credit st.ledger addr airdropAmount },
        getBalance st.ledger addr + airdropAmount,
        [NetEvent.airdropRequest addr airdropAmount]) := by
  simp [airdropIfRequired, Nat.not_le.mpr h, getBalance_credit_self]

/-- Witness for C1 at a concrete empty ledger. -/
theorem airdropIfRequired_funds_when_below_witness :
    getBalance (SysState.mk [] [] []).ledger "addr" < 5 ∧
    airdropIfRequired ⟨[], [], []⟩ "addr" 7 5 =
      (⟨[], [], [("addr", 7)]⟩, 7, [NetEvent.airdropRequest "addr" 7]) :=
  ⟨by decide, airdropIfRequired_funds_when_below ⟨[], [], []⟩ "addr" 7 5 (by decide)⟩

/-- C2: when the fetched balance is at least the requested minimum,
`airdropIfRequired` issues no funding request (the state is unchanged and
the trace is empty) and returns the pre-existing balance. -/
theorem airdropIfRequired_skips_when_sufficient (st : SysState) (addr : Addr)
    (airdropAmount minimumBalance : Nat)
    (h : minimumBalance ≤ getBalance st.ledger addr) :
    airdropIfRequired st addr airdropAmount minimumBalance =
      (st, getBalance st.ledger addr, []) := by
  simp [airdropIfRequired, h]

/-- Witness for C2 at a concrete funded ledger. -/
theorem airdropIfRequired_skips_when_sufficient_witness :
    (3 : Nat) ≤ getBalance (SysState.mk [] [] [("addr", 9)]).ledger "addr" ∧
    airdropIfRequired ⟨[], [], [("addr", 9)]⟩ "addr" 7 3 =
      (⟨[], [], [("addr", 9)]⟩, 9, []) :=
  ⟨by decide,
   airdropIfRequired_skips_when_sufficient ⟨[], [], [("addr", 9)]⟩ "addr" 7 3 (by decide)⟩

/-! ## Claim C3: addKeypairToEnvFile conflict behaviour -/

/-- Follows the claim's words (C3): the variable name already exists in
the destination file, i.e. some line of the file reads `name=...`. -/
def envFileHasVariable (lines : List String) (name : String) : Bool :=
  lines.any (fun l => (name.data ++ ['=']).isPrefixOf l.data)

/-- C3 counterexample: with an empty process environment and a
destination file that already contains the variable MYVAR,
`addKeypairToEnvFile` does not fail and it alters the file, contradicting
the claim as stated (the conflict check reads the process environment,
not the destination file). -/
theorem addKeypairToEnvFile_counterexample :
    envFileHasVariable
      (getFile ⟨[], [("e", ["MYVAR=[1]"])], []⟩ "e") "MYVAR" = true ∧
    (addKeypairToEnvFile ⟨[], [("e", ["MYVAR=[1]"])], []⟩
      ⟨List.replicate 64 0⟩ "MYVAR" (some "e")).1 = .ok () ∧
    getFile (addKeypairToEnvFile ⟨[], [("e", ["MYVAR=[1]"])], []⟩
      ⟨List.replicate 64 0⟩ "MYVAR" (some "e")).2 "e" ≠
      getFile ⟨[], [("e", ["MYVAR=[1]"])], []⟩ "e" :=
  ⟨by decide, rfl, by decide⟩

/-- C3 (amended): when the variable name already exists (with a truthy,
i.e. non-empty, value) in the process environment, persisting the keypair
fails with a conflict error and the whole state, file contents included,
is left unaltered; the destination file itself is not inspected. -/
theorem addKeypairToEnvFile_conflict (st : SysState) (kp : Keypair)
    (variableName : String) (envFileName : Option String)
    (h : envValueTruthy (lookupEnv st.env variableName) = true) :
    addKeypairToEnvFile st kp variableName envFileName =
      (.error (.alreadyExistsInEnvFile variableName), st) := by
  simp [addKeypairToEnvFile, h]

/-- Witness for the amended C3 at a concrete environment. -/
theorem addKeypairToEnvFile_conflict_witness :
    envValueTruthy (lookupEnv (SysState.mk [("V", "x")] [] []).env "V") = true ∧
    addKeypairToEnvFile ⟨[("V", "x")], [], []⟩ ⟨List.replicate 64 0⟩ "V" none =
      (.error (.alreadyExistsInEnvFile "V"), ⟨[("V", "x")], [], []⟩) :=
  ⟨by decide,
   addKeypairToEnvFile_conflict ⟨[("V", "x")], [], []⟩ ⟨List.replicate 64 0⟩ "V" none
     (by decide)⟩

/-! ## Claim C8: confirmTransaction never aborts -/

/-- C8: on every execution path of `confirmTransaction` (RPC error or
success) the trace consists of exactly the one awaited confirmation call,
the abort signal handed to that call is unfired, and the abort mechanism
is never triggered. -/
theorem confirmTransaction_never_aborts
    (getRecentSignatureConfirmation : String → String → Bool → RPCResponse)
    (signature commitment : String) :
    (confirmTransaction getRecentSignatureConfirmation signature commitment).2 =
      [ConfirmEvent.confirmCall signature false] ∧
    ConfirmEvent.abortFired ∉
      (confirmTransaction getRecentSignatureConfirmation signature commitment).2 := by
  cases h : getErrorFromRPCResponse
      (getRecentSignatureConfirmation signature commitment false) <;>
    simp [confirmTransaction, h]

/-! ## Claim C10: the grinder with empty patterns -/

/-- C10: with empty (or absent) prefix and suffix patterns the grinder
accepts immediately: the result is the first generated keypair, after a
single generation. -/
theorem grindKeyPair_empty_patterns (gen : Nat → Keypair) (fuel : Nat)
    (pfx sfx : Option String) (hfuel : 1 ≤ fuel)
    (hp : pfx = none ∨ pfx = some "") (hs : sfx = none ∨ sfx = some "") :
    grindKeyPair gen fuel pfx sfx = some (gen 0, 1) := by
  obtain ⟨f, rfl⟩ : ∃ f, fuel = f + 1 := ⟨fuel - 1, by omega⟩
  have hpm : matchesPfx (addressOf (gen 0)) pfx = true := by
    rcases hp with rfl | rfl
    · rfl
    · simp [matchesPfx, List.isPrefixOf]
  have hsm : matchesSfx (addressOf (gen 0)) sfx = true := by
    rcases hs with rfl | rfl
    · rfl
    · simp [matchesSfx, List.isSuffixOf, List.isPrefixOf]
  simp [grindKeyPair, grindFrom, hpm, hsm]

/-- Witness for C10 with a concrete constant generator. -/
theorem grindKeyPair_empty_patterns_witness :
    grindKeyPair (fun _ => ⟨List.replicate 64 0⟩) 1 none none =
      some (⟨List.replicate 64 0⟩, 1) :=
  grindKeyPair_empty_patterns (fun _ => ⟨List.replicate 64 0⟩) 1 none none
    (by decide) (Or.inl rfl) (Or.inl rfl)

/-! ## Decimal rendering round-trips through the parser -/

theorem digitVal_digitChar (d : Nat) (h : d < 10) : digitVal (digitChar d) = d := by
  interval_cases d <;> decide

theorem isDigit_digitChar (d : Nat) (h : d < 10) : (digitChar d).isDigit = true := by
  interval_cases d <;> decide

theorem natDecDigitsAux_digits (fuel n : Nat) :
    ∀ c ∈ natDecDigitsAux fuel n, c.isDigit = true := by
  induction fuel generalizing n with
  | zero => simp [natDecDigitsAux]
  | succ f ih =>
    intro c hc
    simp only [natDecDigitsAux] at hc
    by_cases h : n < 10
    · rw [if_pos h] at hc
      simp only [List.mem_singleton] at hc
      subst hc
      exact isDigit_digitChar n h
    · rw [if_neg h] at hc
      rcases List.mem_append.mp hc with h' | h'
      · exact ih _ c h'
      · simp only [List.mem_singleton] at h'
        subst h'
        exact isDigit_digitChar _ (Nat.mod_lt _ (by omega))

theorem natDecDigitsAux_foldl (fuel : Nat) :
    ∀ n a, n < 10 ^ fuel →
      (natDecDigitsAux fuel n).foldl (fun acc c => acc * 10 + digitVal c) a =
        a * 10 ^ (natDecDigitsAux fuel n).length + n := by
  induction fuel with
  | zero =>
    intro n a h
    interval_cases n
    simp [natDecDigitsAux]
  | succ f ih =>
    intro n a h
    by_cases h10 : n < 10
    · simp only [natDecDigitsAux, if_pos h10]
      simp [digitVal_digitChar n h10]
    · simp only [natDecDigitsAux, if_neg h10]
      rw [pow_succ] at h
      have hdiv : n / 10 < 10 ^ f := by
        rw [Nat.div_lt_iff_lt_mul (by norm_num)]
        exact h
      rw [List.foldl_append, ih (n / 10) a hdiv]
      simp only [List.foldl_cons, List.foldl_nil, List.length_append,
        List.length_singleton]
      rw [digitVal_digitChar (n % 10) (Nat.mod_lt _ (by omega))]
      have key : ∀ P : Nat,
          (a * P + n / 10) * 10 + n % 10 = a * (P * 10) + (10 * (n / 10) + n % 10) :=
        fun P => by ring
      rw [key, Nat.div_add_mod, pow_succ]

theorem natDecDigits_foldl (n : Nat) :
    (natDecDigits n).foldl (fun acc c => acc * 10 + digitVal c) 0 = n := by
  have h : n < 10 ^ (n + 1) :=
    lt_of_lt_of_le (Nat.lt_pow_self (by norm_num) n)
      (Nat.pow_le_pow_right (by norm_num) (by omega))
  simpa using natDecDigitsAux_foldl (n + 1) n 0 h

theorem natDecDigits_ne_nil (n : Nat) : natDecDigits n ≠ [] := by
  simp only [natDecDigits, natDecDigitsAux]
  split <;> simp

theorem natDecDigits_digits (n : Nat) :
    ∀ c ∈ natDecDigits n, c.isDigit = true :=
  natDecDigitsAux_digits (n + 1) n

theorem takeWhile_append_of_all {p : Char → Bool} (D rest : List Char)
    (hD : ∀ c ∈ D, p c = true)
    (hrest : ∀ c, rest.head? = some c → p c = false) :
    (D ++ rest).takeWhile p = D := by
  induction D with
  | nil =>
    cases rest with
    | nil => rfl
    | cons c cs =>
      simp [List.takeWhile_cons, hrest c rfl]
  | cons d ds ih =>
    have hd := hD d (List.mem_cons_self d ds)
    simp [List.takeWhile_cons, hd]
    exact ih (fun c hc => hD c (List.mem_cons_of_mem d hc))

theorem parseDigits_digits_append (n : Nat) (rest : List Char)
    (hrest : ∀ c, rest.head? = some c → c.isDigit = false) :
    parseDigits (natDecDigits n ++ rest) = some (n, rest) := by
  have htw : (natDecDigits n ++ rest).takeWhile (fun c => c.isDigit) = natDecDigits n :=
    takeWhile_append_of_all _ _ (natDecDigits_digits n) hrest
  simp only [parseDigits, htw]
  rw [if_neg (natDecDigits_ne_nil n)]
  rw [natDecDigits_foldl, List.drop_left]

theorem parseItems_round :
    ∀ (bs : List Nat) (fuel : Nat), bs ≠ [] → bs.length ≤ fuel →
      parseItems fuel (jsonBytesBody bs ++ [']']) = some bs := by
  intro bs
  induction bs with
  | nil => intro fuel h _; exact absurd rfl h
  | cons b rest ih =>
    intro fuel _ hlen
    obtain ⟨f, rfl⟩ : ∃ f, fuel = f + 1 :=
      ⟨fuel - 1, by simp at hlen; omega⟩
    cases rest with
    | nil =>
      simp only [jsonBytesBody, parseItems]
      rw [parseDigits_digits_append b [']']
        (by intro c hc; simp at hc; subst hc; decide)]
      rfl
    | cons b2 rest2 =>
      simp only [jsonBytesBody, parseItems, List.cons_append, List.append_assoc]
      rw [parseDigits_digits_append b (',' :: (jsonBytesBody (b2 :: rest2) ++ [']']))
        (by intro c hc; simp at hc; subst hc; decide)]
      have hlen2 : (b2 :: rest2).length ≤ f := by simp at hlen ⊢; omega
      simp [ih f (by simp) hlen2]

theorem jsonBytesBody_ne_nil (b : Nat) (rest : List Nat) :
    jsonBytesBody (b :: rest) ≠ [] := by
  cases rest with
  | nil => exact natDecDigits_ne_nil b
  | cons b2 rest2 =>
    intro h
    simp only [jsonBytesBody] at h
    exact natDecDigits_ne_nil b (List.append_eq_nil.mp h).1

theorem jsonBytesBody_length (bs : List Nat) :
    bs.length ≤ (jsonBytesBody bs).length + 1 := by
  induction bs with
  | nil => simp
  | cons b rest ih =>
    cases rest with
    | nil => simp
    | cons b2 rest2 =>
      have hpos : 0 < (natDecDigits b).length :=
        List.length_pos_of_ne_nil (natDecDigits_ne_nil b)
      simp only [jsonBytesBody, List.length_append, List.length_cons] at ih ⊢
      omega

theorem jsonParseBytes_round (bs : List Nat) :
    jsonParseBytes (jsonBytesChars bs) = some bs := by
  cases bs with
  | nil => rfl
  | cons b rest =>
    have hne : ¬(jsonBytesBody (b :: rest) ++ [']'] = [']']) := by
      intro h
      have hl := congrArg List.length h
      simp only [List.length_append, List.length_singleton] at hl
      exact jsonBytesBody_ne_nil b rest (List.eq_nil_of_length_eq_zero (by omega))
    show (if jsonBytesBody (b :: rest) ++ [']'] = [']'] then some []
      else parseItems (jsonBytesBody (b :: rest) ++ [']']).length
        (jsonBytesBody (b :: rest) ++ [']'])) = some (b :: rest)
    rw [if_neg hne]
    exact parseItems_round (b :: rest) _ (by simp)
      (by
        have := jsonBytesBody_length (b :: rest)
        simp only [List.length_append, List.length_singleton]
        omega)

/-! ## Loader lemmas -/

theorem base58Decode_bracket (t : List Char) :
    base58Decode (String.mk ('[' :: t)) = none := rfl

theorem mk_jsonBytesChars_ne_empty (bs : List Nat) :
    String.mk (jsonBytesChars bs) ≠ "" := by
  intro h
  have := congrArg String.data h
  simp [jsonBytesChars] at this

theorem getKeypairFromEnvironment_json (env : Env) (variableName : String)
    (bs : List Nat)
    (hs : lookupEnv env variableName = some (String.mk (jsonBytesChars bs)))
    (hlen : bs.length = 64) :
    getKeypairFromEnvironment env variableName = .ok ⟨bs⟩ := by
  simp only [getKeypairFromEnvironment, hs]
  rw [if_neg (mk_jsonBytesChars_ne_empty bs)]
  rw [show jsonBytesChars bs = '[' :: (jsonBytesBody bs ++ [']']) from rfl,
    base58Decode_bracket]
  rw [show ('[' :: (jsonBytesBody bs ++ [']'])) = jsonBytesChars bs from rfl,
    jsonParseBytes_round]
  simp [Keypair.fromSecretKey, hlen]

/-! ## Claim C5: getKeypairFromEnvironment behaviour -/

/-- C5: loading a keypair from the environment succeeds for a value in
the compact base58 encoding of a valid secret key (first conjunct after
the error case) and for a value in the JSON array-of-bytes encoding of a
valid secret key; an absent variable fails immediately with the
missing-variable configuration error; a value that is neither valid
encoding, a base58 value decoding to an invalid secret key, and a JSON
array holding an invalid secret key all fail with a malformed-secret
error.  No branch retries: each case is a single straight-line
evaluation of the loader. -/
theorem getKeypairFromEnvironment_spec (env : Env) (variableName : String) :
    (lookupEnv env variableName = none →
      getKeypairFromEnvironment env variableName =
        .error (.missingVariable variableName)) ∧
    (∀ s bs kp, lookupEnv env variableName = some s →
      base58Decode s = some bs → Keypair.fromSecretKey bs = some kp →
      getKeypairFromEnvironment env variableName = .ok kp) ∧
    (∀ bs kp,
      lookupEnv env variableName = some (String.mk (jsonBytesChars bs)) →
      Keypair.fromSecretKey bs = some kp →
      getKeypairFromEnvironment env variableName = .ok kp) ∧
    (∀ s, lookupEnv env variableName = some s → s ≠ "" →
      base58Decode s = none → jsonParseBytes s.data = none →
      getKeypairFromEnvironment env variableName =
        .error (.invalidSecretKey variableName)) ∧
    (∀ s bs, lookupEnv env variableName = some s → s ≠ "" →
      base58Decode s = some bs → Keypair.fromSecretKey bs = none →
      getKeypairFromEnvironment env variableName =
        .error (.invalidSecretKey variableName)) ∧
    (∀ s bs, lookupEnv env variableName = some s →
      base58Decode s = none → jsonParseBytes s.data = some bs →
      Keypair.fromSecretKey bs = none →
      getKeypairFromEnvironment env variableName =
        .error (.badSecretKeySize variableName)) := by
  refine ⟨fun h => by simp [getKeypairFromEnvironment, h], ?_, ?_, ?_, ?_, ?_⟩
  · intro s bs kp hs h58 hkp
    by_cases hse : s = ""
    · subst hse
      have hbs : bs = [] := by
        have : base58Decode "" = some [] := rfl
        rw [this] at h58
        exact (Option.some.injEq _ _ ▸ h58.symm)
      subst hbs
      simp [Keypair.fromSecretKey] at hkp
    · simp [getKeypairFromEnvironment, hs, hse, h58, hkp]
  · intro bs kp hs hkp
    have hlen : bs.length = 64 := by
      by_contra hne
      simp [Keypair.fromSecretKey, hne] at hkp
    have hkp' : kp = ⟨bs⟩ := by
      simp [Keypair.fromSecretKey, hlen] at hkp
      exact hkp.symm
    rw [hkp']
    exact getKeypairFromEnvironment_json env variableName bs hs hlen
  · intro s hs hse h58 hjson
    simp [getKeypairFromEnvironment, hs, hse, h58, hjson]
  · intro s bs hs hse h58 hkp
    simp [getKeypairFromEnvironment, hs, hse, h58, hkp]
  · intro s bs hs h58 hjson hkp
    have hse : s ≠ "" := by
      intro h
      subst h
      rw [show base58Decode "" = some [] from rfl] at h58
      exact Option.noConfusion h58
    simp [getKeypairFromEnvironment, hs, hse, h58, hjson, hkp]

/-- Witness for C5: the missing-variable case, the JSON success case and
the malformed case at concrete inputs. -/
theorem getKeypairFromEnvironment_spec_witness :
    getKeypairFromEnvironment [] "K" = .error (.missingVariable "K") ∧
    getKeypairFromEnvironment
      [("K", keypairToSecretKeyJSON ⟨List.replicate 64 0⟩)] "K" =
      .ok ⟨List.replicate 64 0⟩ ∧
    getKeypairFromEnvironment [("K", "!!!")] "K" =
      .error (.invalidSecretKey "K") :=
  ⟨(getKeypairFromEnvironment_spec [] "K").1 rfl,
   (getKeypairFromEnvironment_spec _ "K").2.2.1 (List.replicate 64 0)
     ⟨List.replicate 64 0⟩ rfl (by decide),
   (getKeypairFromEnvironment_spec _ "K").2.2.2.1 "!!!" rfl (by decide)
     (by decide) (by decide)⟩

/-! ## Env-file parsing lemmas -/

theorem splitFirstEq_append (k v : List Char) (he : '=' ∉ k) :
    splitFirstEq (k ++ '=' :: v) = some (k, v) := by
  induction k with
  | nil => simp [splitFirstEq]
  | cons c cs ih =>
    have hc : ¬ c = '=' := fun h => he (h ▸ List.mem_cons_self c cs)
    have ih' := ih (fun h => he (List.mem_cons_of_mem c h))
    simp [splitFirstEq, if_neg hc, ih']

theorem parseEnvLine_empty : parseEnvLine "" = none := rfl

theorem parseEnvLine_comment (x : List Char) :
    parseEnvLine (String.mk (solanaAddressMarker ++ x)) = none := rfl

theorem parseEnvLine_key (k v : List Char) (hk : k ≠ [])
    (hh : k.head? ≠ some '#') (he : '=' ∉ k) :
    parseEnvLine (String.mk (k ++ '=' :: v)) = some (String.mk k, String.mk v) := by
  obtain ⟨c₀, cs, rfl⟩ : ∃ c d, k = c :: d := by
    cases k with
    | nil => exact absurd rfl hk
    | cons a b => exact ⟨a, b, rfl⟩
  have hc0 : ¬ c₀ = '#' := by simpa using hh
  rw [show parseEnvLine (String.mk ((c₀ :: cs) ++ '=' :: v)) =
    (if c₀ = '#' then none
     else (splitFirstEq ((c₀ :: cs) ++ '=' :: v)).map
       (fun p => (String.mk p.1, String.mk p.2))) from rfl]
  rw [if_neg hc0, splitFirstEq_append _ _ he]
  rfl

theorem lookupEnv_append_left_none (a b : Env) (k : String)
    (h : lookupEnv a k = none) : lookupEnv (a ++ b) k = lookupEnv b k := by
  simp only [lookupEnv] at h ⊢
  have h' : a.find? (fun p => p.1 = k) = none := Option.map_eq_none'.mp h
  rw [List.find?_append, h', Option.none_or]

theorem lookupEnv_filter_none (pairs : Env) (q : String × String → Bool)
    (k : String) (h : lookupEnv pairs k = none) :
    lookupEnv (pairs.filter q) k = none := by
  simp only [lookupEnv, Option.map_eq_none'] at h ⊢
  rw [List.find?_eq_none] at h ⊢
  intro x hx
  exact h x (List.mem_of_mem_filter hx)

theorem recordedSolanaAddress_append (old : List String) (addr : String)
    (keyLine : String)
    (hk : solanaAddressMarker.isPrefixOf keyLine.data = false) :
    recordedSolanaAddress
      (old ++ ["", String.mk (solanaAddressMarker ++ addr.data), keyLine]) =
      some addr := by
  simp only [recordedSolanaAddress, List.reverse_append]
  rw [show ((["", String.mk (solanaAddressMarker ++ addr.data), keyLine] : List String).reverse ++
      old.reverse) =
    keyLine :: String.mk (solanaAddressMarker ++ addr.data) :: "" :: old.reverse from rfl]
  rw [List.find?_cons_of_neg _ (by simp [hk]),
    List.find?_cons_of_pos _ (by simp [isPrefixOf_append_self])]
  simp only [Option.map_some']
  rw [List.drop_left]

/-! ## Claim C6: persist / reload round trip -/

/-- C6: persisting a valid keypair under a fresh variable name and
reloading it through the environment loader yields the keypair back, and
its derived address is exactly the address recorded in the comment line
the write path appended next to the KEY=VALUE line. -/
theorem persistAndReload_roundtrip (st : SysState) (kp : Keypair)
    (name fname : String)
    (hlen : kp.secretKey.length = 64)
    (henv : lookupEnv st.env name = none)
    (hfile : lookupEnv (dotenvParse (getFile st fname)) name = none)
    (hne : name.data ≠ [])
    (hhash : name.data.head? ≠ some '#')
    (heq : '=' ∉ name.data) :
    (persistAndReload st kp name fname).1 = .ok kp ∧
    recordedSolanaAddress (getFile (persistAndReload st kp name fname).2 fname) =
      some (addressOf kp) := by
  have hkline : solanaAddressMarker.isPrefixOf
      (String.mk (name.data ++ '=' :: (keypairToSecretKeyJSON kp).data)).data = false := by
    obtain ⟨c₀, cs, hname⟩ : ∃ c d, name.data = c :: d := by
      cases h : name.data with
      | nil => exact absurd h hne
      | cons a b => exact ⟨a, b, rfl⟩
    have hc0 : ('#' == c₀) = false := by
      rw [beq_eq_false_iff_ne]
      intro h
      rw [hname] at hhash
      simp only [List.head?_cons, ne_eq, Option.some.injEq] at hhash
      exact hhash h.symm
    rw [show (String.mk (name.data ++ '=' :: (keypairToSecretKeyJSON kp).data)).data =
      name.data ++ '=' :: (keypairToSecretKeyJSON kp).data from rfl, hname]
    rw [show solanaAddressMarker = '#' :: " Solana Address: ".data from rfl]
    simp [List.isPrefixOf, hc0]
  have h1 : addKeypairToEnvFile st kp name (some fname) =
      (.ok (), appendFileLines st fname
        ["", String.mk (solanaAddressMarker ++ (addressOf kp).data),
         String.mk (name.data ++ '=' :: (keypairToSecretKeyJSON kp).data)]) := by
    simp [addKeypairToEnvFile, henv, envValueTruthy]
  have hgf : getFile (appendFileLines st fname
      ["", String.mk (solanaAddressMarker ++ (addressOf kp).data),
       String.mk (name.data ++ '=' :: (keypairToSecretKeyJSON kp).data)]) fname =
      getFile st fname ++
        ["", String.mk (solanaAddressMarker ++ (addressOf kp).data),
         String.mk (name.data ++ '=' :: (keypairToSecretKeyJSON kp).data)] := by
    simp [getFile, appendFileLines]
  have hthree : dotenvParse
      ["", String.mk (solanaAddressMarker ++ (addressOf kp).data),
       String.mk (name.data ++ '=' :: (keypairToSecretKeyJSON kp).data)] =
      [(name, keypairToSecretKeyJSON kp)] := by
    simp only [dotenvParse, List.filterMap_cons, parseEnvLine_empty,
      parseEnvLine_comment,
      parseEnvLine_key name.data (keypairToSecretKeyJSON kp).data hne hhash heq]
    rfl
  have henv2 : lookupEnv ((dotenvConfig (appendFileLines st fname
      ["", String.mk (solanaAddressMarker ++ (addressOf kp).data),
       String.mk (name.data ++ '=' :: (keypairToSecretKeyJSON kp).data)]) fname).env) name =
      some (keypairToSecretKeyJSON kp) := by
    show lookupEnv (st.env ++ (dotenvParse (getFile (appendFileLines st fname _) fname)).filter
      (fun p => (lookupEnv st.env p.1).isNone)) name = _
    rw [hgf, dotenvParse, List.filterMap_append]
    rw [show (List.filterMap parseEnvLine
      ["", String.mk (solanaAddressMarker ++ (addressOf kp).data),
       String.mk (name.data ++ '=' :: (keypairToSecretKeyJSON kp).data)]) =
      [(name, keypairToSecretKeyJSON kp)] from hthree]
    rw [List.filter_append]
    rw [lookupEnv_append_left_none _ _ _ henv]
    rw [show ([(name, keypairToSecretKeyJSON kp)].filter
        (fun p => (lookupEnv st.env p.1).isNone)) = [(name, keypairToSecretKeyJSON kp)] from by
      simp [henv]]
    have hfile' : lookupEnv (List.filterMap parseEnvLine (getFile st fname)) name = none :=
      hfile
    rw [lookupEnv_append_left_none _ _ _ (lookupEnv_filter_none _ _ _ hfile')]
    simp [lookupEnv]
  have hload : getKeypairFromEnvironment ((dotenvConfig (appendFileLines st fname
      ["", String.mk (solanaAddressMarker ++ (addressOf kp).data),
       String.mk (name.data ++ '=' :: (keypairToSecretKeyJSON kp).data)]) fname).env) name =
      .ok kp :=
    getKeypairFromEnvironment_json _ name kp.secretKey henv2 hlen
  constructor
  · simp only [persistAndReload, h1]
    exact hload
  · simp only [persistAndReload, h1]
    rw [show getFile (dotenvConfig (appendFileLines st fname
      ["", String.mk (solanaAddressMarker ++ (addressOf kp).data),
       String.mk (name.data ++ '=' :: (keypairToSecretKeyJSON kp).data)]) fname) fname =
      getFile (appendFileLines st fname
      ["", String.mk (solanaAddressMarker ++ (addressOf kp).data),
       String.mk (name.data ++ '=' :: (keypairToSecretKeyJSON kp).data)]) fname from rfl]
    rw [hgf]
    exact recordedSolanaAddress_append _ _ _ hkline

/-- Witness for C6 at a concrete keypair, a fresh environment and a fresh
file. -/
theorem persistAndReload_roundtrip_witness :
    (persistAndReload ⟨[], [], []⟩ ⟨List.replicate 64 0⟩ "MYVAR" ".env").1 =
      .ok ⟨List.replicate 64 0⟩ ∧
    recordedSolanaAddress
      (getFile (persistAndReload ⟨[], [], []⟩ ⟨List.replicate 64 0⟩
        "MYVAR" ".env").2 ".env") =
      some (addressOf ⟨List.replicate 64 0⟩) :=
  persistAndReload_roundtrip ⟨[], [], []⟩ ⟨List.replicate 64 0⟩ "MYVAR" ".env"
    (by decide) rfl rfl (by decide) (by decide) (by decide)

/-! ## State-preservation lemmas for createWallet -/

theorem addKeypairToEnvFile_ledger (st : SysState) (kp : Keypair)
    (v : String) (f : Option String) :
    (addKeypairToEnvFile st kp v f).2.ledger = st.ledger := by
  simp only [addKeypairToEnvFile]
  split <;> rfl

theorem addKeypairToEnvFile_ok_inversion (st : SysState) (kp : Keypair)
    (v : String) (f : Option String) (st1 : SysState)
    (h : addKeypairToEnvFile st kp v f = (.ok (), st1)) :
    st1 = appendFileLines st (f.getD ".env")
      ["", String.mk (solanaAddressMarker ++ (addressOf kp).data),
       String.mk (v.data ++ '=' :: (keypairToSecretKeyJSON kp).data)] := by
  simp only [addKeypairToEnvFile] at h
  split at h
  · simp at h
  · simp only [Prod.mk.injEq] at h
    exact h.2.symm

theorem airdropIfRequired_env (st : SysState) (a : Addr) (x m : Nat) :
    (airdropIfRequired st a x m).1.env = st.env := by
  simp only [airdropIfRequired]
  split <;> rfl

theorem airdropIfRequired_files (st : SysState) (a : Addr) (x m : Nat) :
    (airdropIfRequired st a x m).1.files = st.files := by
  simp only [airdropIfRequired]
  split <;> rfl

theorem fundIfRequested_env (st : SysState) (signer : KeyPairSigner)
    (a : Option Nat) : (fundIfRequested st signer a).1.env = st.env := by
  cases a with
  | none => rfl
  | some l =>
    by_cases hl : l = 0
    · simp [fundIfRequested, hl]
    · simp only [fundIfRequested, if_neg hl]
      exact airdropIfRequired_env ..

theorem fundIfRequested_files (st : SysState) (signer : KeyPairSigner)
    (a : Option Nat) : (fundIfRequested st signer a).1.files = st.files := by
  cases a with
  | none => rfl
  | some l =>
    by_cases hl : l = 0
    · simp [fundIfRequested, hl]
    · simp only [fundIfRequested, if_neg hl]
      exact airdropIfRequired_files ..

theorem fundIfRequested_balance (st : SysState) (signer : KeyPairSigner) (l : Nat)
    (h : getBalance st.ledger signer.address = 0) :
    getBalance (fundIfRequested st signer (some l)).1.ledger signer.address = l := by
  by_cases hl : l = 0
  · subst hl
    simpa [fundIfRequested] using h
  · have hlt : ¬ (l ≤ getBalance st.ledger signer.address) := by omega
    simp only [fundIfRequested, if_neg hl, airdropIfRequired, ge_iff_le, if_neg hlt]
    simp [getBalance_credit_self, h]

theorem fundIfRequested_events (st : SysState) (signer : KeyPairSigner) (l : Nat)
    (h : getBalance st.ledger signer.address = 0) (hl : l ≠ 0) :
    (fundIfRequested st signer (some l)).2 =
      [NetEvent.airdropRequest signer.address l] := by
  have hlt : ¬ (l ≤ getBalance st.ledger signer.address) := by omega
  simp [fundIfRequested, hl, airdropIfRequired, hlt]

/-- Inversion of a successful `createWallet` run: on both paths the final
state and the trace come from the funding step applied to an intermediate
state sharing the caller's ledger, and the funded signer is the returned
one. -/
theorem createWallet_ok_paths (gen : Nat → Keypair) (fuel : Nat) (st : SysState)
    (options : CreateWalletOptions) (signer : KeyPairSigner) (st' : SysState)
    (evs : List NetEvent)
    (hok : createWallet gen fuel st options = .ok (signer, st', evs)) :
    ∃ stMid : SysState, stMid.ledger = st.ledger ∧
      st' = (fundIfRequested stMid signer (resolvedAirdropAmount options)).1 ∧
      evs = (fundIfRequested stMid signer (resolvedAirdropAmount options)).2 := by
  simp only [createWallet] at hok
  split at hok
  · split at hok
    · simp at hok
    · split at hok
      · simp at hok
      · split at hok
        · simp at hok
        · rename_i xb0 xb1 fname heqT heqR xg tempKp i heqG xa st1 heqAdd xl signerL heqLoad
          simp only [Except.ok.injEq, Prod.mk.injEq] at hok
          obtain ⟨hs, hst, hevs⟩ := hok
          subst hs
          refine ⟨dotenvConfig st1 fname, ?_, hst.symm, hevs.symm⟩
          have h2 : (addKeypairToEnvFile st tempKp
              (options.envVariableName.getD DEFAULT_ENV_KEYPAIR_VARIABLE_NAME)
              (some fname)).2.ledger = st1.ledger := by rw [heqAdd]
          rw [addKeypairToEnvFile_ledger] at h2
          exact h2.symm
  · split at hok
    · simp at hok
    · rename_i xb xo himp x2 tempKp i heqG
      simp only [Except.ok.injEq, Prod.mk.injEq] at hok
      obtain ⟨hs, hst, hevs⟩ := hok
      subst hs
      exact ⟨st, rfl, hst.symm, hevs.symm⟩

/-! ## Claim C4: createWallet funds exactly the requested amount -/

/-- C4: for a createWallet call with an explicit non-null airdrop amount,
the returned wallet's balance is exactly that amount: the funding step
calls airdropIfRequired with the minimum balance equal to the airdrop
amount, and the freshly created wallet starts at balance zero (the
freshness hypothesis). -/
theorem createWallet_airdrop_exact (gen : Nat → Keypair) (fuel : Nat)
    (st : SysState) (options : CreateWalletOptions) (l : Nat)
    (signer : KeyPairSigner) (st' : SysState) (evs : List NetEvent)
    (hopt : options.airdropAmount = .amount l)
    (hok : createWallet gen fuel st options = .ok (signer, st', evs))
    (hfresh : getBalance st.ledger signer.address = 0) :
    getBalance st'.ledger signer.address = l := by
  obtain ⟨stMid, hled, hst, _⟩ :=
    createWallet_ok_paths gen fuel st options signer st' evs hok
  have haa : resolvedAirdropAmount options = some l := by
    simp [resolvedAirdropAmount, hopt]
  rw [hst, haa]
  exact fundIfRequested_balance stMid signer l (by rw [hled]; exact hfresh)

/-- Witness for C4 on a concrete run of createWallet with an explicit
airdrop amount of five lamports. -/
theorem createWallet_airdrop_exact_witness :
    getBalance ((⟨[], [], [(addressOf ⟨List.replicate 64 0⟩, 5)]⟩ :
      SysState)).ledger
      (KeyPairSigner.address ⟨⟨List.replicate 64 0⟩, false⟩) = 5 :=
  createWallet_airdrop_exact (fun _ => ⟨List.replicate 64 0⟩) 1 ⟨[], [], []⟩
    { airdropAmount := .amount 5 } 5 ⟨⟨List.replicate 64 0⟩, false⟩
    ⟨[], [], [(addressOf ⟨List.replicate 64 0⟩, 5)]⟩
    [NetEvent.airdropRequest (addressOf ⟨List.replicate 64 0⟩) 5]
    rfl rfl (by decide)

/-! ## Claim C9: default airdrop amount and falsy skip -/

/-- C9: a createWallet call that omits airdropAmount entirely funds the
fresh wallet with DEFAULT_AIRDROP_AMOUNT (issuing that one funding
request), while an explicit null and an explicit zero amount are falsy
and produce no funding request at all. -/
theorem createWallet_default_airdrop (gen : Nat → Keypair) (fuel : Nat)
    (st : SysState) (options : CreateWalletOptions)
    (signer : KeyPairSigner) (st' : SysState) (evs : List NetEvent) :
    (options.airdropAmount = .unset →
      createWallet gen fuel st options = .ok (signer, st', evs) →
      getBalance st.ledger signer.address = 0 →
      evs = [NetEvent.airdropRequest signer.address DEFAULT_AIRDROP_AMOUNT] ∧
      getBalance st'.ledger signer.address = DEFAULT_AIRDROP_AMOUNT) ∧
    (options.airdropAmount = .null →
      createWallet gen fuel st options = .ok (signer, st', evs) →
      evs = []) ∧
    (options.airdropAmount = .amount 0 →
      createWallet gen fuel st options = .ok (signer, st', evs) →
      evs = []) := by
  refine ⟨?_, ?_, ?_⟩
  · intro hopt hok hfresh
    obtain ⟨stMid, hled, hst, hevs⟩ :=
      createWallet_ok_paths gen fuel st options signer st' evs hok
    have haa : resolvedAirdropAmount options = some DEFAULT_AIRDROP_AMOUNT := by
      simp [resolvedAirdropAmount, hopt]
    have hfresh' : getBalance stMid.ledger signer.address = 0 := by
      rw [hled]; exact hfresh
    constructor
    · rw [hevs, haa]
      exact fundIfRequested_events stMid signer _ hfresh' (by decide)
    · rw [hst, haa]
      exact fundIfRequested_balance stMid signer _ hfresh'
  · intro hopt hok
    obtain ⟨stMid, _, _, hevs⟩ :=
      createWallet_ok_paths gen fuel st options signer st' evs hok
    have haa : resolvedAirdropAmount options = none := by
      simp [resolvedAirdropAmount, hopt]
    rw [hevs, haa]
    rfl
  · intro hopt hok
    obtain ⟨stMid, _, _, hevs⟩ :=
      createWallet_ok_paths gen fuel st options signer st' evs hok
    have haa : resolvedAirdropAmount options = some 0 := by
      simp [resolvedAirdropAmount, hopt]
    rw [hevs, haa]
    rfl

/-- Witness for C9: concrete runs with an omitted airdrop amount (default
funding happens) and with an explicit null (no funding request). -/
theorem createWallet_default_airdrop_witness :
    ([NetEvent.airdropRequest (addressOf ⟨List.replicate 64 0⟩)
        DEFAULT_AIRDROP_AMOUNT] =
      [NetEvent.airdropRequest
        (KeyPairSigner.address ⟨⟨List.replicate 64 0⟩, false⟩)
        DEFAULT_AIRDROP_AMOUNT] ∧
      getBalance ((⟨[], [],
        [(addressOf ⟨List.replicate 64 0⟩, DEFAULT_AIRDROP_AMOUNT)]⟩ :
          SysState)).ledger
        (KeyPairSigner.address ⟨⟨List.replicate 64 0⟩, false⟩) =
        DEFAULT_AIRDROP_AMOUNT) ∧
    ([] : List NetEvent) = [] :=
  ⟨(createWallet_default_airdrop (fun _ => ⟨List.replicate 64 0⟩) 1 ⟨[], [], []⟩
      {} ⟨⟨List.replicate 64 0⟩, false⟩
      ⟨[], [], [(addressOf ⟨List.replicate 64 0⟩, DEFAULT_AIRDROP_AMOUNT)]⟩
      [NetEvent.airdropRequest (addressOf ⟨List.replicate 64 0⟩)
        DEFAULT_AIRDROP_AMOUNT]).1 rfl rfl (by decide),
   (createWallet_default_airdrop (fun _ => ⟨List.replicate 64 0⟩) 1 ⟨[], [], []⟩
      { airdropAmount := .null } ⟨⟨List.replicate 64 0⟩, false⟩
      ⟨[], [], []⟩ []).2.1 rfl rfl⟩

/-! ## Claim C7: persistence path of createWallet -/

/-- C7: when createWallet is asked to persist (an env file name is given,
or implied by giving an env variable name), a temporary extractable
keypair is ground and its KEY=VALUE line is written to the target file
under the given variable name, and the signer actually returned is the
one reloaded from that file's environment as non-extractable — the
extractable temporary material is not what the caller receives. -/
theorem createWallet_persistence_path (gen : Nat → Keypair) (fuel : Nat)
    (st : SysState) (options : CreateWalletOptions)
    (signer : KeyPairSigner) (st' : SysState) (evs : List NetEvent)
    (hper : envValueTruthy (resolvedEnvFileName options) = true)
    (hok : createWallet gen fuel st options = .ok (signer, st', evs)) :
    signer.extractable = false ∧
    ∃ tempKp attempts fname,
      grindKeyPair gen fuel options.pfx options.sfx = some (tempKp, attempts) ∧
      resolvedEnvFileName options = some fname ∧
      String.mk ((options.envVariableName.getD DEFAULT_ENV_KEYPAIR_VARIABLE_NAME).data
        ++ '=' :: (keypairToSecretKeyJSON tempKp).data) ∈ getFile st' fname ∧
      loadWalletFromEnvironment st'.env
        (options.envVariableName.getD DEFAULT_ENV_KEYPAIR_VARIABLE_NAME) =
        .ok signer := by
  simp only [createWallet] at hok
  split at hok
  · split at hok
    · simp at hok
    · split at hok
      · simp at hok
      · split at hok
        · simp at hok
        · rename_i xb0 xb1 fname heqT heqR xg tempKp i heqG xa st1 heqAdd xl
            signerL heqLoad
          simp only [Except.ok.injEq, Prod.mk.injEq] at hok
          obtain ⟨hs, hst, hevs⟩ := hok
          subst hs
          have hfiles : st'.files = st1.files := by
            rw [← hst]
            exact fundIfRequested_files ..
          have henvp : st'.env = (dotenvConfig st1 fname).env := by
            rw [← hst]
            exact fundIfRequested_env ..
          have hext : signerL.extractable = false := by
            cases hget : getKeypairFromEnvironment (dotenvConfig st1 fname).env
                (options.envVariableName.getD DEFAULT_ENV_KEYPAIR_VARIABLE_NAME) with
            | error e =>
              simp only [loadWalletFromEnvironment, hget, Except.map] at heqLoad
              exact Except.noConfusion heqLoad
            | ok kp' =>
              simp only [loadWalletFromEnvironment, hget, Except.map,
                Except.ok.injEq] at heqLoad
              rw [← heqLoad]
          refine ⟨hext, tempKp, i, fname, heqG, heqR, ?_, ?_⟩
          · have hst1 := addKeypairToEnvFile_ok_inversion _ _ _ _ _ heqAdd
            have hgf : getFile st' fname = getFile st1 fname := by
              simp [getFile, hfiles]
            rw [hgf, hst1]
            simp [getFile, appendFileLines]
          · rw [henvp]
            exact heqLoad
  · split at hok
    · simp at hok
    · rename_i xb xo himp x2 tempKp i heqG
      exfalso
      cases hr : resolvedEnvFileName options with
      | none =>
        rw [hr] at hper
        exact absurd hper (by simp [envValueTruthy])
      | some f => exact himp f hper hr

set_option maxRecDepth 8192

/-- Witness for C7 on a concrete persisting createWallet run. -/
theorem createWallet_persistence_path_witness :
    (⟨⟨List.replicate 64 0⟩, false⟩ : KeyPairSigner).extractable = false ∧
    ∃ tempKp attempts fname,
      grindKeyPair (fun _ => ⟨List.replicate 64 0⟩) 1
        ({ envVariableName := some "MYVAR" } : CreateWalletOptions).pfx
        ({ envVariableName := some "MYVAR" } : CreateWalletOptions).sfx =
        some (tempKp, attempts) ∧
      resolvedEnvFileName { envVariableName := some "MYVAR" } = some fname ∧
      String.mk ((({ envVariableName := some "MYVAR" } :
          CreateWalletOptions).envVariableName.getD
          DEFAULT_ENV_KEYPAIR_VARIABLE_NAME).data
        ++ '=' :: (keypairToSecretKeyJSON tempKp).data) ∈
        getFile (⟨[("MYVAR", keypairToSecretKeyJSON ⟨List.replicate 64 0⟩)],
          [(".env",
            ["", String.mk (solanaAddressMarker ++
              (addressOf ⟨List.replicate 64 0⟩).data),
             String.mk (("MYVAR" : String).data ++
               '=' :: (keypairToSecretKeyJSON ⟨List.replicate 64 0⟩).data)])],
          [(addressOf ⟨List.replicate 64 0⟩, DEFAULT_AIRDROP_AMOUNT)]⟩ :
          SysState) fname ∧
      loadWalletFromEnvironment (⟨[("MYVAR",
          keypairToSecretKeyJSON ⟨List.replicate 64 0⟩)],
          [(".env",
            ["", String.mk (solanaAddressMarker ++
              (addressOf ⟨List.replicate 64 0⟩).data),
             String.mk (("MYVAR" : String).data ++
               '=' :: (keypairToSecretKeyJSON ⟨List.replicate 64 0⟩).data)])],
          [(addressOf ⟨List.replicate 64 0⟩, DEFAULT_AIRDROP_AMOUNT)]⟩ :
          SysState).env
        (({ envVariableName := some "MYVAR" } :
          CreateWalletOptions).envVariableName.getD
          DEFAULT_ENV_KEYPAIR_VARIABLE_NAME) =
        .ok ⟨⟨List.replicate 64 0⟩, false⟩ :=
  createWallet_persistence_path (fun _ => ⟨List.replicate 64 0⟩) 1 ⟨[], [], []⟩
    { envVariableName := some "MYVAR" } ⟨⟨List.replicate 64 0⟩, false⟩
    ⟨[("MYVAR", keypairToSecretKeyJSON ⟨List.replicate 64 0⟩)],
     [(".env",
       ["", String.mk (solanaAddressMarker ++
         (addressOf ⟨List.replicate 64 0⟩).data),
        String.mk (("MYVAR" : String).data ++
          '=' :: (keypairToSecretKeyJSON ⟨List.replicate 64 0⟩).data)])],
     [(addressOf ⟨List.replicate 64 0⟩, DEFAULT_AIRDROP_AMOUNT)]⟩
    [NetEvent.airdropRequest (addressOf ⟨List.replicate 64 0⟩)
      DEFAULT_AIRDROP_AMOUNT]
    (by decide) rfl

end Kite
